import Mathlib

/-!
Verification of the svg2icon icon-container encoders.

Shallow embedding of `src/internal/ico/ico.go` and `src/internal/icns/icns.go`.
Bytes are modelled as `Nat` values below 256 inside `List Nat` buffers.
Machine-integer conversions (`uint8`, `uint16`, `uint32` in Go) are modelled
with explicit `% 2^w`.  The rasterizer `png.SvgToPng` (package
`internal/png`) opens the SVG file, rasterizes it through the external
`oksvg`/`rasterx` libraries and PNG-encodes the canvas; its failures are
the raw errors of `os.Open`, `oksvg.ReadIconStream` and `png.Encode`,
opaque values that do not record the requested pixel size.  The encoders
are therefore parametrised over an abstract rasterization function
`raster : Nat → Except ε (List Nat)` returning the PNG payload bytes for a
pixel size, with an opaque error type, exactly as the Go code consumes it.
-/

namespace Svg2Icon

/-- Little-endian serialization of a Go `uint16` value
(`binary.Write(buffer, binary.LittleEndian, u16)`). -/
def le16 (n : Nat) : List Nat :=
  [n % 2 ^ 8, n / 2 ^ 8 % 2 ^ 8]

/-- Little-endian serialization of a Go `uint32` value
(`binary.Write(buffer, binary.LittleEndian, u32)`). -/
def le32 (n : Nat) : List Nat :=
  [n % 2 ^ 8, n / 2 ^ 8 % 2 ^ 8, n / 2 ^ 16 % 2 ^ 8, n / 2 ^ 24 % 2 ^ 8]

/-- Big-endian serialization of a Go `uint32` value
(`binary.Write(buffer, binary.BigEndian, u32)`). -/
def be32 (n : Nat) : List Nat :=
  [n / 2 ^ 24 % 2 ^ 8, n / 2 ^ 16 % 2 ^ 8, n / 2 ^ 8 % 2 ^ 8, n % 2 ^ 8]

/-- Byte sequence of a Go string literal (Go strings are UTF-8 byte
sequences; all strings appearing in the sources are ASCII). -/
def strBytes (s : String) : List Nat :=
  s.data.map Char.toNat

/-! ## ICO encoder (`src/internal/ico/ico.go`) -/

/-- The sizes used in Windows for .ico files (`ico.go` line 15). -/
def IconSizes : List Nat := [16, 24, 32, 48, 64, 128, 256]

/-- ICONDIREntry represents a single icon in the icon directory
(`ico.go` lines 18-27).  All fields are machine integers in Go;
each is kept reduced modulo its width by construction. -/
structure ICONDIREntry where
  width : Nat
  height : Nat
  colorCount : Nat
  reserved : Nat
  planes : Nat
  bitCount : Nat
  bytesInRes : Nat
  imageOffset : Nat
deriving Repr, DecidableEq

/-- Directory-entry construction for one size/payload pair at a given
running offset (`ico.go` lines 59-77): `width := uint8(currentSize)`,
the 256 case mapped to 0, fixed colour metadata, `BytesInRes` and
`ImageOffset` as `uint32` values. -/
def mkIcoEntry (size : Nat) (data : List Nat) (offset : Nat) : ICONDIREntry :=
  let w := if size = 256 then 0 else size % 2 ^ 8
  { width := w
    height := w
    colorCount := 0
    reserved := 0
    planes := 1
    bitCount := 32
    bytesInRes := data.length % 2 ^ 32
    imageOffset := offset % 2 ^ 32 }

/-- The entry-building loop of `CreateIco` (`ico.go` lines 53-80): walk the
size/payload pairs carrying the running offset, which starts at
`6 + 16 * count` and advances by each payload's length.  Go tracks the
offset as a wrapping `uint32`; carrying the exact sum and reducing modulo
`2^32` at each field assignment is equivalent because wrapping addition
composes. -/
def icoEntries : List (Nat × List Nat) → Nat → List ICONDIREntry
  | [], _ => []
  | (size, data) :: rest, offset =>
      mkIcoEntry size data offset :: icoEntries rest (offset + data.length)

/-- Serialization of one `ICONDIREntry` (`ico.go` lines 91-100): eight
fields written little-endian in declaration order. -/
def entryBytes (e : ICONDIREntry) : List Nat :=
  [e.width % 2 ^ 8, e.height % 2 ^ 8, e.colorCount % 2 ^ 8, e.reserved % 2 ^ 8]
    ++ le16 e.planes ++ le16 e.bitCount ++ le32 e.bytesInRes ++ le32 e.imageOffset

/-- The ICONDIR header (`ico.go` lines 85-88): reserved = 0, type = 1,
then the entry count, each as little-endian `uint16`. -/
def icoHeader (count : Nat) : List Nat :=
  le16 0 ++ le16 1 ++ le16 count

/-- The complete ICO buffer for a list of size/payload pairs
(`ico.go` lines 53-105): header, serialized directory entries in list
order, then all payloads concatenated in the same order. -/
def icoBuffer (items : List (Nat × List Nat)) : List Nat :=
  icoHeader items.length
    ++ ((icoEntries items (6 + items.length * 16)).map entryBytes).flatten
    ++ (items.map Prod.snd).flatten

/-- The rasterization loop of `CreateIco` (`ico.go` lines 45-51): invoke
the rasterizer once per size in list order, returning the first error
unmodified. -/
def rasterAll (raster : Nat → Except ε (List Nat)) : List Nat → Except ε (List (List Nat))
  | [] => .ok []
  | s :: rest =>
      match raster s with
      | .error e => .error e
      | .ok d =>
          match rasterAll raster rest with
          | .error e => .error e
          | .ok ds => .ok (d :: ds)

/-- CreateIco generalized over the size list (the Go function closes over
the global `IconSizes`): rasterize every size, then build the buffer.
The final `os.WriteFile` is the caller-side persistence step; the
function's algorithmic result is the buffer. -/
def createIcoWith (sizes : List Nat) (raster : Nat → Except ε (List Nat)) :
    Except ε (List Nat) :=
  match rasterAll raster sizes with
  | .error e => .error e
  | .ok imageData => .ok (icoBuffer (sizes.zip imageData))

/-- CreateIco (`ico.go` lines 40-114) at the fixed size list. -/
def CreateIco (raster : Nat → Except ε (List Nat)) : Except ε (List Nat) :=
  createIcoWith IconSizes raster

/-! ## ICNS encoder (`src/internal/icns/icns.go`) -/

/-- IconType represents an ICNS icon type with its OSType code and size
(`icns.go` lines 33-37). -/
structure IconType where
  osType : String
  size : Nat
  isRetina : Bool := false
deriving Repr, DecidableEq

/-- StandardIconTypes defines the set of icons to be included in the
.icns file (`icns.go` lines 15-30). -/
def StandardIconTypes : List IconType :=
  [⟨"icp4", 16, false⟩, ⟨"icp5", 32, false⟩, ⟨"icp6", 64, false⟩,
   ⟨"ic07", 128, false⟩, ⟨"ic08", 256, false⟩, ⟨"ic09", 512, false⟩,
   ⟨"ic10", 1024, false⟩,
   ⟨"ic11", 32, false⟩, ⟨"ic12", 64, false⟩, ⟨"ic13", 256, false⟩,
   ⟨"ic14", 512, false⟩]

/-- IconEntry represents a single icon entry in the ICNS file
(`icns.go` lines 40-44).  `osType` models the Go `[4]byte` array,
`length` the `uint32` length field. -/
structure IconEntry where
  osType : List Nat
  length : Nat
  data : List Nat
deriving Repr, DecidableEq

/-- The Go `copy(osTypeBytes[:], iconType.OSType)` into a zeroed
`[4]byte`: at most four bytes of the string, zero-padded to exactly
four. -/
def osTypeBytes (s : String) : List Nat :=
  (strBytes s).take 4 ++ List.replicate (4 - (strBytes s).length) 0

/-- Entry construction of `CreateIcns` (`icns.go` lines 67-76):
`Length = uint32(len(pngData) + 8)`. -/
def mkIcnsEntry (t : IconType) (data : List Nat) : IconEntry :=
  { osType := osTypeBytes t.osType
    length := (data.length + 8) % 2 ^ 32
    data := data }

/-- The total-size computation (`icns.go` lines 78-83): a `uint32`
starting at 8 and accumulating every entry's length field with wrapping
addition. -/
def icnsTotalSize (entries : List IconEntry) : Nat :=
  (8 + (entries.map IconEntry.length).sum) % 2 ^ 32

/-- Serialization of one ICNS entry (`icns.go` lines 96-102): the 4-byte
type code, the big-endian length, then the raw payload. -/
def icnsEntryBytes (e : IconEntry) : List Nat :=
  e.osType ++ be32 e.length ++ e.data

/-- The complete ICNS buffer for a list of entries (`icns.go` lines
85-103): ASCII magic "icns", big-endian total size, then every entry
serialized in order with no padding. -/
def icnsBuffer (entries : List IconEntry) : List Nat :=
  strBytes "icns" ++ be32 (icnsTotalSize entries)
    ++ (entries.map icnsEntryBytes).flatten

/-- The rasterization loop of `CreateIcns` (`icns.go` lines 60-76):
rasterize each table entry's size in order, returning the first error
unmodified, and pair each payload with its type. -/
def icnsRasterAll (raster : Nat → Except ε (List Nat)) :
    List IconType → Except ε (List IconEntry)
  | [] => .ok []
  | t :: rest =>
      match raster t.size with
      | .error e => .error e
      | .ok d =>
          match icnsRasterAll raster rest with
          | .error e => .error e
          | .ok es => .ok (mkIcnsEntry t d :: es)

/-- CreateIcns generalized over the type table (the Go function closes
over the global `StandardIconTypes`). -/
def createIcnsWith (table : List IconType) (raster : Nat → Except ε (List Nat)) :
    Except ε (List Nat) :=
  match icnsRasterAll raster table with
  | .error e => .error e
  | .ok entries => .ok (icnsBuffer entries)

/-- CreateIcns (`icns.go` lines 57-112) at the fixed type table. -/
def CreateIcns (raster : Nat → Except ε (List Nat)) : Except ε (List Nat) :=
  createIcnsWith StandardIconTypes raster

/-! ## Spec-modelled collaborators

The repository ships no reader for the containers it writes; the
following definitions model a conformant reader of each format from the
spec's words alone, for the round-trip property. -/

/-- Big-endian decoding of the first four bytes of a buffer (reader side
of `be32`). -/
def decBe32 (b : List Nat) : Nat :=
  2 ^ 24 * b.getD 0 0 + 2 ^ 16 * b.getD 1 0 + 2 ^ 8 * b.getD 2 0 + b.getD 3 0

/-- Conformant ICO directory reader, written from the spec's persisted
file layout (§6): read `count` 16-byte directory entries, taking from
each the width byte, the little-endian `BytesInRes` at entry offset 8 and
the little-endian `ImageOffset` at entry offset 12. -/
def readIcoDir : Nat → List Nat → List (Nat × Nat × Nat)
  | 0, _ => []
  | n + 1, w :: _hgt :: _cc :: _rsv :: _p1 :: _p2 :: _b1 :: _b2 ::
      l0 :: l1 :: l2 :: l3 :: o0 :: o1 :: o2 :: o3 :: rest =>
      (w, l0 + 2 ^ 8 * l1 + 2 ^ 16 * l2 + 2 ^ 24 * l3,
        o0 + 2 ^ 8 * o1 + 2 ^ 16 * o2 + 2 ^ 24 * o3) :: readIcoDir n rest
  | _ + 1, _ => []

/-- Conformant ICO reader from the spec's layout (§6): check the fixed
reserved/type header bytes, read the little-endian entry count, the
directory, and slice each payload out of the buffer at its offset and
length; the recovered size applies the 0-means-256 convention. -/
def parseIcoSpec (b : List Nat) : Option (List (Nat × List Nat)) :=
  match b with
  | 0 :: 0 :: 1 :: 0 :: c1 :: c2 :: rest =>
      some ((readIcoDir (c1 + 2 ^ 8 * c2) rest).map fun m =>
        (if m.1 = 0 then 256 else m.1, (b.drop m.2.2).take m.2.1))
  | _ => none

/-- Conformant ICNS entry scan, written from the spec (§3: ICNS has no
directory, readers scan sequentially summing length fields).  `fuel`
bounds the recursion; any fuel at least the buffer length suffices since
every entry consumes at least its 8 header bytes. -/
def scanIcns : Nat → List Nat → Option (List (List Nat × List Nat))
  | _, [] => some []
  | 0, _ :: _ => none
  | fuel + 1, x :: xs =>
      if (x :: xs).length < 8 then none
      else
        match scanIcns fuel
            (((x :: xs).drop 8).drop (decBe32 ((x :: xs).drop 4) - 8)) with
        | some rest =>
            some (((x :: xs).take 4,
              ((x :: xs).drop 8).take (decBe32 ((x :: xs).drop 4) - 8)) :: rest)
        | none => none

/-- Conformant ICNS reader from the spec's layout (§6): check the magic,
then scan the entries, recovering each type code with its payload. -/
def parseIcnsSpec (b : List Nat) : Option (List (List Nat × List Nat)) :=
  if b.take 4 = strBytes "icns" then scanIcns b.length (b.drop 8) else none

/-! ## Helper lemmas -/

theorem entryBytes_length (e : ICONDIREntry) : (entryBytes e).length = 16 := by
  simp [entryBytes, le16, le32]

theorem icoEntries_length (items : List (Nat × List Nat)) :
    ∀ off, (icoEntries items off).length = items.length := by
  induction items with
  | nil => intro off; rfl
  | cons p rest ih => intro off; cases p; simp [icoEntries, ih]

theorem icoEntries_getElem (items : List (Nat × List Nat)) :
    ∀ (off i : Nat),
      (icoEntries items off)[i]? =
        items[i]?.map fun p =>
          mkIcoEntry p.1 p.2
            (off + (((items.map fun q => q.2.length).take i).sum)) := by
  induction items with
  | nil => intro off i; simp [icoEntries]
  | cons p rest ih =>
      intro off i
      cases p with
      | mk size data =>
        cases i with
        | zero => simp [icoEntries]
        | succ j =>
            simp only [icoEntries, List.getElem?_cons_succ, List.map_cons,
              List.take_succ_cons, List.sum_cons, ih (off + data.length) j,
              Nat.add_assoc]

theorem sumTakeLe : ∀ (l : List Nat) (i : Nat), (l.take i).sum ≤ l.sum := by
  intro l
  induction l with
  | nil => intro i; simp
  | cons a rest ih =>
      intro i
      cases i with
      | zero => simp
      | succ j => simpa using Nat.add_le_add_left (ih j) a

theorem rasterAll_length (raster : Nat → Except ε (List Nat)) :
    ∀ (sizes : List Nat) (ds : List (List Nat)),
      rasterAll raster sizes = .ok ds → ds.length = sizes.length := by
  intro sizes
  induction sizes with
  | nil => intro ds h; cases h; rfl
  | cons s rest ih =>
      intro ds h
      cases hr : raster s with
      | error e => simp [rasterAll, hr] at h
      | ok d =>
          cases hrest : rasterAll raster rest with
          | error e => simp [rasterAll, hr, hrest] at h
          | ok ds0 =>
              simp only [rasterAll, hr, hrest, Except.ok.injEq] at h
              subst h
              simp [ih ds0 hrest]

theorem rasterAll_congr {ε : Type} (r1 r2 : Nat → Except ε (List Nat)) :
    ∀ (sizes : List Nat), (∀ s ∈ sizes, r1 s = r2 s) →
      rasterAll r1 sizes = rasterAll r2 sizes := by
  intro sizes
  induction sizes with
  | nil => intro _; rfl
  | cons s rest ih =>
      intro h
      have hs : r1 s = r2 s := h s (by simp)
      have hrest := ih fun x hx => h x (by simp [hx])
      simp only [rasterAll, hs, hrest]

theorem icnsRasterAll_congr {ε : Type} (r1 r2 : Nat → Except ε (List Nat)) :
    ∀ (table : List IconType), (∀ t ∈ table, r1 t.size = r2 t.size) →
      icnsRasterAll r1 table = icnsRasterAll r2 table := by
  intro table
  induction table with
  | nil => intro _; rfl
  | cons t rest ih =>
      intro h
      have ht : r1 t.size = r2 t.size := h t (by simp)
      have hrest := ih fun x hx => h x (by simp [hx])
      simp only [icnsRasterAll, ht, hrest]

/-! ## Claims -/

/-- C1: for a 7-payload list in ICO size-list order, the i-th directory
entry written by `CreateIco` has `ImageOffset` equal to
`6 + 16*count + Σ (lengths of payloads 0..i-1)` (so the first offset is
`6 + 16*count` and offsets are contiguous) and `BytesInRes` equal to the
i-th payload's length, provided the whole file fits the `uint32` offset
space. -/
theorem ico_entry_offsets_contiguous (payloads : List (List Nat))
    (hlen : payloads.length = 7)
    (hfit : 6 + 16 * 7 + (payloads.map List.length).sum < 2 ^ 32)
    (i : Nat) (hi : i < 7) :
    ∃ e p,
      (icoEntries (IconSizes.zip payloads)
          (6 + (IconSizes.zip payloads).length * 16))[i]? = some e
      ∧ payloads[i]? = some p
      ∧ e.imageOffset = 6 + 16 * 7 + ((payloads.take i).map List.length).sum
      ∧ e.bytesInRes = p.length := by
  have hiz : i < IconSizes.length := by simp [IconSizes]; omega
  have hip : i < payloads.length := by omega
  obtain ⟨s, hs⟩ : ∃ s, IconSizes[i]? = some s :=
    ⟨IconSizes[i], List.getElem?_eq_getElem hiz⟩
  obtain ⟨p, hp⟩ : ∃ p, payloads[i]? = some p :=
    ⟨payloads[i], List.getElem?_eq_getElem hip⟩
  have hzip : (IconSizes.zip payloads)[i]? = some (s, p) := by
    rw [List.getElem?_zip_eq_some]; exact ⟨hs, hp⟩
  have hmapl : (IconSizes.zip payloads).map (fun q => q.2.length)
      = payloads.map List.length := by
    have hsnd : (IconSizes.zip payloads).map Prod.snd = payloads :=
      List.map_snd_zip _ _ (by simp [IconSizes, hlen])
    calc (IconSizes.zip payloads).map (fun q => q.2.length)
        = ((IconSizes.zip payloads).map Prod.snd).map List.length := by
          rw [List.map_map]; rfl
      _ = payloads.map List.length := by rw [hsnd]
  have hzl : (IconSizes.zip payloads).length = 7 := by
    simp [IconSizes, hlen]
  refine ⟨mkIcoEntry s p
      (6 + (IconSizes.zip payloads).length * 16
        + (((payloads.map List.length).take i).sum)), p, ?_, hp, ?_, ?_⟩
  · rw [icoEntries_getElem, hzip, hmapl]; rfl
  · have hle : ((payloads.map List.length).take i).sum
        ≤ (payloads.map List.length).sum := sumTakeLe _ i
    have hmt : ((payloads.take i).map List.length)
        = (payloads.map List.length).take i := List.map_take _ _ _
    simp only [mkIcoEntry, hzl, hmt]
    omega
  · have hmem : p ∈ payloads := List.getElem?_mem hp
    have hple : p.length ≤ (payloads.map List.length).sum :=
      List.le_sum_of_mem (List.mem_map_of_mem List.length hmem)
    simp only [mkIcoEntry]
    omega

/-- Witness for C1 at seven singleton payloads and `i = 2`. -/
theorem ico_entry_offsets_contiguous_witness :
    (([[0], [1], [2], [3], [4], [5], [6]] : List (List Nat)).length = 7)
    ∧ (6 + 16 * 7
        + (([[0], [1], [2], [3], [4], [5], [6]] : List (List Nat)).map
            List.length).sum < 2 ^ 32)
    ∧ ∃ e p,
      (icoEntries (IconSizes.zip [[0], [1], [2], [3], [4], [5], [6]])
          (6 + (IconSizes.zip
            ([[0], [1], [2], [3], [4], [5], [6]] : List (List Nat))).length
              * 16))[2]? = some e
      ∧ ([[0], [1], [2], [3], [4], [5], [6]] : List (List Nat))[2]? = some p
      ∧ e.imageOffset = 6 + 16 * 7
          + ((([[0], [1], [2], [3], [4], [5], [6]] : List (List Nat)).take 2).map
              List.length).sum
      ∧ e.bytesInRes = p.length :=
  ⟨by decide, by decide,
    ico_entry_offsets_contiguous [[0], [1], [2], [3], [4], [5], [6]]
      (by decide) (by decide) 2 (by decide)⟩

/-- C3: every size in the fixed ICO size list is encoded with width and
height bytes equal to the size itself, except 256 which is encoded as 0;
no size in the list other than 256 triggers the 0-substitution. -/
theorem ico_dimension_encoding (size : Nat) (hmem : size ∈ IconSizes)
    (data : List Nat) (off : Nat) :
    (mkIcoEntry size data off).width = (if size = 256 then 0 else size)
    ∧ (mkIcoEntry size data off).height = (if size = 256 then 0 else size)
    ∧ ((mkIcoEntry size data off).width = 0 ↔ size = 256) := by
  fin_cases hmem <;> simp [mkIcoEntry]

/-- Witness for C3 at size 256 (and implicitly exercising the guard). -/
theorem ico_dimension_encoding_witness :
    (256 ∈ IconSizes)
    ∧ ((mkIcoEntry 256 [] 0).width = (if 256 = 256 then 0 else 256)
      ∧ (mkIcoEntry 256 [] 0).height = (if 256 = 256 then 0 else 256)
      ∧ ((mkIcoEntry 256 [] 0).width = 0 ↔ 256 = 256)) :=
  ⟨by decide, ico_dimension_encoding 256 (by decide) [] 0⟩

/-- C7: with an empty size list the ICO encoder does not fail; it emits
the header-only 6-byte buffer with entry count 0 and nothing else. -/
theorem ico_empty_size_list {ε : Type} (raster : Nat → Except ε (List Nat)) :
    createIcoWith [] raster = .ok [0, 0, 1, 0, 0, 0] := rfl

/-- C8: two rasterizers that agree on every requested size yield
byte-identical encoder results; in particular a deterministic rasterizer
makes both encoders deterministic functions of its outputs. -/
theorem encoders_deterministic {ε : Type} (sizes : List Nat)
    (table : List IconType) (r1 r2 : Nat → Except ε (List Nat))
    (h1 : ∀ s ∈ sizes, r1 s = r2 s)
    (h2 : ∀ t ∈ table, r1 t.size = r2 t.size) :
    createIcoWith sizes r1 = createIcoWith sizes r2
    ∧ createIcnsWith table r1 = createIcnsWith table r2 := by
  constructor
  · simp only [createIcoWith, rasterAll_congr r1 r2 sizes h1]
  · simp only [createIcnsWith, icnsRasterAll_congr r1 r2 table h2]

/-- Witness for C8 at the fixed tables and a constant rasterizer. -/
theorem encoders_deterministic_witness :
    (∀ s ∈ IconSizes,
      (fun _ => Except.ok (ε := Unit) ([] : List Nat)) s
        = (fun _ => Except.ok (ε := Unit) ([] : List Nat)) s)
    ∧ (∀ t ∈ StandardIconTypes,
      (fun _ => Except.ok (ε := Unit) ([] : List Nat)) t.size
        = (fun _ => Except.ok (ε := Unit) ([] : List Nat)) t.size)
    ∧ createIcoWith IconSizes (fun _ => Except.ok (ε := Unit) ([] : List Nat))
        = createIcoWith IconSizes (fun _ => Except.ok (ε := Unit) ([] : List Nat))
    ∧ createIcnsWith StandardIconTypes
          (fun _ => Except.ok (ε := Unit) ([] : List Nat))
        = createIcnsWith StandardIconTypes
          (fun _ => Except.ok (ε := Unit) ([] : List Nat)) :=
  ⟨fun _ _ => rfl, fun _ _ => rfl,
    (encoders_deterministic IconSizes StandardIconTypes _ _
      (fun _ _ => rfl) (fun _ _ => rfl)).1,
    (encoders_deterministic IconSizes StandardIconTypes _ _
      (fun _ _ => rfl) (fun _ _ => rfl)).2⟩

theorem osTypeBytes_length (s : String) : (osTypeBytes s).length = 4 := by
  simp [osTypeBytes]
  omega

theorem icnsRasterAll_ok_shape {ε : Type} (raster : Nat → Except ε (List Nat)) :
    ∀ (table : List IconType) (entries : List IconEntry),
      icnsRasterAll raster table = .ok entries →
      ∃ payloads : List (List Nat), payloads.length = table.length
        ∧ entries = (table.zip payloads).map fun q => mkIcnsEntry q.1 q.2 := by
  intro table
  induction table with
  | nil =>
      intro entries h
      simp only [icnsRasterAll, Except.ok.injEq] at h
      exact ⟨[], rfl, h.symm⟩
  | cons t rest ih =>
      intro entries h
      cases hr : raster t.size with
      | error e => simp [icnsRasterAll, hr] at h
      | ok d =>
          cases hrest : icnsRasterAll raster rest with
          | error e => simp [icnsRasterAll, hr, hrest] at h
          | ok es =>
              simp only [icnsRasterAll, hr, hrest, Except.ok.injEq] at h
              subst h
              obtain ⟨ps, hlen, hshape⟩ := ih es hrest
              exact ⟨d :: ps, by simp [hlen], by simp [hshape]⟩

/-- C2: every ICNS TypeEntry's length field equals its payload's byte
length plus 8, and the header's total-size field equals 8 plus the sum of
all entry length fields, whenever those quantities fit in `uint32`. -/
theorem icns_length_and_total_fields {ε : Type}
    (raster : Nat → Except ε (List Nat)) (table : List IconType)
    (entries : List IconEntry)
    (h : icnsRasterAll raster table = .ok entries)
    (hfit : ∀ e ∈ entries, e.data.length + 8 < 2 ^ 32)
    (htot : 8 + (entries.map IconEntry.length).sum < 2 ^ 32) :
    (∀ e ∈ entries, e.length = e.data.length + 8)
    ∧ icnsTotalSize entries = 8 + (entries.map IconEntry.length).sum := by
  obtain ⟨ps, hlen, hshape⟩ := icnsRasterAll_ok_shape raster table entries h
  constructor
  · intro e he
    have hfe := hfit e he
    rw [hshape] at he
    obtain ⟨q, hq, hform⟩ := List.mem_map.mp he
    subst hform
    simp only [mkIcnsEntry] at hfe ⊢
    omega
  · simp only [icnsTotalSize]
    omega

/-- Witness for C2 at a constant rasterizer returning the payload `[7]`. -/
theorem icns_length_and_total_fields_witness :
    (icnsRasterAll (fun _ => Except.ok (ε := Unit) [7]) StandardIconTypes
      = .ok (StandardIconTypes.map (fun t => mkIcnsEntry t [7])))
    ∧ (∀ e ∈ StandardIconTypes.map (fun t => mkIcnsEntry t [7]),
        e.data.length + 8 < 2 ^ 32)
    ∧ (8 + ((StandardIconTypes.map (fun t => mkIcnsEntry t [7])).map
        IconEntry.length).sum < 2 ^ 32)
    ∧ ((∀ e ∈ StandardIconTypes.map (fun t => mkIcnsEntry t [7]),
        e.length = e.data.length + 8)
      ∧ icnsTotalSize (StandardIconTypes.map (fun t => mkIcnsEntry t [7]))
          = 8 + ((StandardIconTypes.map (fun t => mkIcnsEntry t [7])).map
              IconEntry.length).sum) :=
  ⟨rfl, by decide, by decide,
    icns_length_and_total_fields (fun _ => Except.ok (ε := Unit) [7])
      StandardIconTypes _ rfl (by decide) (by decide)⟩

/-- C6: a successful `CreateIcns` buffer is the 4 ASCII bytes of "icns",
the big-endian total size, then each of the 11 table entries in fixed
order as 4-byte type code (the table's code verbatim), big-endian length,
and raw payload, concatenated with no padding. -/
theorem icns_byte_layout {ε : Type} (raster : Nat → Except ε (List Nat))
    (entries : List IconEntry)
    (h : icnsRasterAll raster StandardIconTypes = .ok entries) :
    ∃ buf, CreateIcns raster = .ok buf
      ∧ buf = strBytes "icns" ++ be32 (icnsTotalSize entries)
          ++ (entries.map fun e => e.osType ++ be32 e.length ++ e.data).flatten
      ∧ strBytes "icns" = [105, 99, 110, 115]
      ∧ entries.length = 11
      ∧ entries.map IconEntry.osType
          = StandardIconTypes.map (fun t => strBytes t.osType)
      ∧ ∀ e ∈ entries, e.osType.length = 4 := by
  obtain ⟨ps, hlen, hshape⟩ := icnsRasterAll_ok_shape raster _ entries h
  have hlen11 : ps.length = 11 := by simpa [StandardIconTypes] using hlen
  refine ⟨icnsBuffer entries, ?_, rfl, by decide, ?_, ?_, ?_⟩
  · simp [CreateIcns, createIcnsWith, h]
  · rw [hshape]
    simp [StandardIconTypes, hlen11]
  · rw [hshape, List.map_map]
    have hfst : (StandardIconTypes.zip ps).map Prod.fst = StandardIconTypes :=
      List.map_fst_zip _ _ (by omega)
    calc (StandardIconTypes.zip ps).map (IconEntry.osType ∘ fun q => mkIcnsEntry q.1 q.2)
        = ((StandardIconTypes.zip ps).map Prod.fst).map
            (fun t => osTypeBytes t.osType) := by
          rw [List.map_map]; rfl
      _ = StandardIconTypes.map (fun t => osTypeBytes t.osType) := by rw [hfst]
      _ = StandardIconTypes.map (fun t => strBytes t.osType) := by decide
  · intro e he
    rw [hshape] at he
    obtain ⟨q, hq, hform⟩ := List.mem_map.mp he
    subst hform
    simp [mkIcnsEntry, osTypeBytes_length]

/-- Witness for C6 at a constant rasterizer returning empty payloads. -/
theorem icns_byte_layout_witness :
    (icnsRasterAll (fun _ => Except.ok (ε := Unit) ([] : List Nat))
        StandardIconTypes
      = .ok (StandardIconTypes.map (fun t => mkIcnsEntry t [])))
    ∧ ∃ buf,
      CreateIcns (fun _ => Except.ok (ε := Unit) ([] : List Nat)) = .ok buf
      ∧ buf = strBytes "icns"
          ++ be32 (icnsTotalSize (StandardIconTypes.map (fun t => mkIcnsEntry t [])))
          ++ ((StandardIconTypes.map (fun t => mkIcnsEntry t [])).map
              fun e => e.osType ++ be32 e.length ++ e.data).flatten
      ∧ strBytes "icns" = [105, 99, 110, 115]
      ∧ (StandardIconTypes.map (fun t => mkIcnsEntry t [])).length = 11
      ∧ (StandardIconTypes.map (fun t => mkIcnsEntry t [])).map IconEntry.osType
          = StandardIconTypes.map (fun t => strBytes t.osType)
      ∧ ∀ e ∈ StandardIconTypes.map (fun t => mkIcnsEntry t []),
          e.osType.length = 4 :=
  ⟨rfl,
    icns_byte_layout (fun _ => Except.ok (ε := Unit) ([] : List Nat))
      _ rfl⟩

theorem icoEntryBytesFlatten_length (es : List ICONDIREntry) :
    ((es.map entryBytes).flatten).length = 16 * es.length := by
  induction es with
  | nil => rfl
  | cons e rest ih =>
      simp only [List.map_cons, List.flatten_cons, List.length_append,
        entryBytes_length, ih, List.length_cons]
      omega

theorem icnsEntryBytes_mk_length (t : IconType) (d : List Nat) :
    (icnsEntryBytes (mkIcnsEntry t d)).length = d.length + 8 := by
  simp only [icnsEntryBytes, mkIcnsEntry, List.length_append,
    osTypeBytes_length, be32]
  simp
  omega

/-- C5: a successful `CreateIco` with the 7-element default size list
yields a buffer whose first 6 bytes are 00 00 01 00 07 00, followed by
7 × 16 = 112 bytes of directory entries serialized in list order, followed
by the 7 payloads concatenated in size-list order. -/
theorem ico_byte_layout {ε : Type} (raster : Nat → Except ε (List Nat))
    (payloads : List (List Nat))
    (h : rasterAll raster IconSizes = .ok payloads) :
    ∃ buf, CreateIco raster = .ok buf
      ∧ payloads.length = 7
      ∧ buf.take 6 = [0, 0, 1, 0, 7, 0]
      ∧ buf = [0, 0, 1, 0, 7, 0]
          ++ ((icoEntries (IconSizes.zip payloads) 118).map entryBytes).flatten
          ++ payloads.flatten
      ∧ ((icoEntries (IconSizes.zip payloads) 118).map entryBytes).flatten.length
          = 112
      ∧ buf.drop 118 = payloads.flatten := by
  have hp7 : payloads.length = 7 := by
    simpa [IconSizes] using rasterAll_length raster IconSizes payloads h
  have hzl : (IconSizes.zip payloads).length = 7 := by simp [IconSizes, hp7]
  have hsnd : (IconSizes.zip payloads).map Prod.snd = payloads :=
    List.map_snd_zip _ _ (by simp [IconSizes, hp7])
  have hel : ((icoEntries (IconSizes.zip payloads) 118).map entryBytes).flatten.length
      = 112 := by
    rw [icoEntryBytesFlatten_length, icoEntries_length, hzl]
  have hbuf : icoBuffer (IconSizes.zip payloads)
      = [0, 0, 1, 0, 7, 0]
        ++ ((icoEntries (IconSizes.zip payloads) 118).map entryBytes).flatten
        ++ payloads.flatten := by
    simp only [icoBuffer, hzl, hsnd]
    norm_num [icoHeader, le16]
  refine ⟨icoBuffer (IconSizes.zip payloads), ?_, hp7, ?_, hbuf, hel, ?_⟩
  · simp [CreateIco, createIcoWith, h]
  · rw [hbuf]
    rfl
  · have hbuf2 : icoBuffer (IconSizes.zip payloads)
        = (([0, 0, 1, 0, 7, 0] : List Nat)
            ++ ((icoEntries (IconSizes.zip payloads) 118).map entryBytes).flatten)
          ++ payloads.flatten := by
      rw [List.append_assoc]
      exact hbuf
    have hlen118 : (([0, 0, 1, 0, 7, 0] : List Nat)
        ++ ((icoEntries (IconSizes.zip payloads) 118).map entryBytes).flatten).length
        = 118 := by
      simp [hel]
    rw [hbuf2]
    exact List.drop_left' hlen118

/-- Witness for C5 at a constant rasterizer returning the payload `[9]`. -/
theorem ico_byte_layout_witness :
    (rasterAll (fun _ => Except.ok (ε := Unit) [9]) IconSizes
      = .ok [[9], [9], [9], [9], [9], [9], [9]])
    ∧ ∃ buf,
      CreateIco (fun _ => Except.ok (ε := Unit) [9]) = .ok buf
      ∧ ([[9], [9], [9], [9], [9], [9], [9]] : List (List Nat)).length = 7
      ∧ buf.take 6 = [0, 0, 1, 0, 7, 0]
      ∧ buf = [0, 0, 1, 0, 7, 0]
          ++ ((icoEntries
              (IconSizes.zip [[9], [9], [9], [9], [9], [9], [9]]) 118).map
                entryBytes).flatten
          ++ ([[9], [9], [9], [9], [9], [9], [9]] : List (List Nat)).flatten
      ∧ ((icoEntries
          (IconSizes.zip [[9], [9], [9], [9], [9], [9], [9]]) 118).map
            entryBytes).flatten.length = 112
      ∧ buf.drop 118
          = ([[9], [9], [9], [9], [9], [9], [9]] : List (List Nat)).flatten :=
  ⟨rfl, ico_byte_layout (fun _ => Except.ok (ε := Unit) [9]) _ rfl⟩

/-- C10: the serialized ICO buffer's total length is
`6 + 16*count + Σ payload lengths`, which also equals the last entry's
`ImageOffset + BytesInRes`; the serialized ICNS buffer's total length
equals the value stored in its total-size field. -/
theorem buffers_self_consistent (items : List (Nat × List Nat))
    (table : List IconType) (payloads : List (List Nat))
    (hne : items ≠ [])
    (hfit : 6 + 16 * items.length + (items.map fun p => p.2.length).sum < 2 ^ 32)
    (hplen : payloads.length = table.length)
    (hdfit : ∀ d ∈ payloads, d.length + 8 < 2 ^ 32)
    (htfit : 8 + (payloads.map fun d => d.length + 8).sum < 2 ^ 32) :
    ((icoBuffer items).length
        = 6 + 16 * items.length + (items.map fun p => p.2.length).sum)
    ∧ (∃ e, (icoEntries items (6 + items.length * 16)).getLast? = some e
        ∧ e.imageOffset + e.bytesInRes = (icoBuffer items).length)
    ∧ ((icnsBuffer ((table.zip payloads).map fun q => mkIcnsEntry q.1 q.2)).length
        = icnsTotalSize ((table.zip payloads).map fun q => mkIcnsEntry q.1 q.2)) := by
  have hico : (icoBuffer items).length
      = 6 + 16 * items.length + (items.map fun p => p.2.length).sum := by
    have h3 : ((items.map Prod.snd).flatten).length
        = (items.map fun p => p.2.length).sum := by
      rw [List.length_flatten, List.map_map]
      rfl
    simp only [icoBuffer, List.length_append, icoEntryBytesFlatten_length,
      icoEntries_length, h3, icoHeader, le16]
    simp
  refine ⟨hico, ?_, ?_⟩
  · have hpos : 0 < items.length := List.length_pos.mpr hne
    have hi : items.length - 1 < items.length := by omega
    have hgetl : (icoEntries items (6 + items.length * 16)).getLast?
        = (icoEntries items (6 + items.length * 16))[items.length - 1]? := by
      rw [List.getLast?_eq_getElem?, icoEntries_length]
    have hee := icoEntries_getElem items (6 + items.length * 16) (items.length - 1)
    rw [List.getElem?_eq_getElem hi] at hee
    refine ⟨_, by rw [hgetl, hee]; rfl, ?_⟩
    have hlast : ((items.map fun q => q.2.length).take (items.length - 1)).sum
          + (items[items.length - 1]).2.length
        = (items.map fun q => q.2.length).sum := by
      have hmlen : (items.length - 1) < (items.map fun q => q.2.length).length := by
        simpa using hi
      have hts := List.sum_take_succ (items.map fun q => q.2.length)
        (items.length - 1) hmlen
      have hgl : (items.map fun q => q.2.length)[items.length - 1] =
          (items[items.length - 1]).2.length := List.getElem_map _
      have hfull : items.length - 1 + 1 = (items.map fun q => q.2.length).length := by
        simp
        omega
      rw [hgl] at hts
      rw [hfull, List.take_length] at hts
      omega
    simp only [mkIcoEntry, hico]
    omega
  · have hbytes : ((((table.zip payloads).map fun q => mkIcnsEntry q.1 q.2).map
        icnsEntryBytes).map List.length)
        = payloads.map fun d => d.length + 8 := by
      rw [List.map_map, List.map_map]
      calc (table.zip payloads).map
            (List.length ∘ icnsEntryBytes ∘ fun q => mkIcnsEntry q.1 q.2)
          = (table.zip payloads).map (fun q => q.2.length + 8) :=
            List.map_congr_left fun q _ => icnsEntryBytes_mk_length q.1 q.2
        _ = ((table.zip payloads).map Prod.snd).map (fun d => d.length + 8) := by
            rw [List.map_map]; rfl
        _ = payloads.map fun d => d.length + 8 := by
            rw [List.map_snd_zip _ _ (by omega)]
    have hlens : (((table.zip payloads).map fun q => mkIcnsEntry q.1 q.2).map
          IconEntry.length)
        = payloads.map fun d => d.length + 8 := by
      rw [List.map_map]
      calc (table.zip payloads).map (IconEntry.length ∘ fun q => mkIcnsEntry q.1 q.2)
          = (table.zip payloads).map (fun q => (q.2.length + 8) % 2 ^ 32) := by rfl
        _ = ((table.zip payloads).map Prod.snd).map (fun d => (d.length + 8) % 2 ^ 32) := by
            rw [List.map_map]; rfl
        _ = payloads.map (fun d => (d.length + 8) % 2 ^ 32) := by
            rw [List.map_snd_zip _ _ (by omega)]
        _ = payloads.map fun d => d.length + 8 :=
            List.map_congr_left fun d hd => Nat.mod_eq_of_lt (hdfit d hd)
    have hflat : ((((table.zip payloads).map fun q => mkIcnsEntry q.1 q.2).map
          icnsEntryBytes).flatten).length
        = (payloads.map fun d => d.length + 8).sum := by
      rw [List.length_flatten, hbytes]
    have h4a : (strBytes "icns").length = 4 := rfl
    have h4b : ∀ n, (be32 n).length = 4 := fun _ => rfl
    simp only [icnsBuffer, icnsTotalSize, List.length_append, h4a, h4b,
      hflat, hlens]
    omega

/-- Witness for C10 at one ICO item and a one-entry ICNS table. -/
theorem buffers_self_consistent_witness :
    (([((16 : Nat), [5, 5])] : List (Nat × List Nat)) ≠ [])
    ∧ (6 + 16 * ([((16 : Nat), [5, 5])] : List (Nat × List Nat)).length
        + (([((16 : Nat), [5, 5])] : List (Nat × List Nat)).map
            fun p => p.2.length).sum < 2 ^ 32)
    ∧ (([[3]] : List (List Nat)).length = ([⟨"icp4", 16, false⟩] : List IconType).length)
    ∧ (∀ d ∈ ([[3]] : List (List Nat)), d.length + 8 < 2 ^ 32)
    ∧ (8 + (([[3]] : List (List Nat)).map fun d => d.length + 8).sum < 2 ^ 32)
    ∧ ((icoBuffer [((16 : Nat), [5, 5])]).length
        = 6 + 16 * ([((16 : Nat), [5, 5])] : List (Nat × List Nat)).length
          + (([((16 : Nat), [5, 5])] : List (Nat × List Nat)).map
              fun p => p.2.length).sum)
    ∧ (∃ e, (icoEntries [((16 : Nat), [5, 5])]
          (6 + ([((16 : Nat), [5, 5])] : List (Nat × List Nat)).length * 16)).getLast?
        = some e
        ∧ e.imageOffset + e.bytesInRes = (icoBuffer [((16 : Nat), [5, 5])]).length)
    ∧ ((icnsBuffer ((([⟨"icp4", 16, false⟩] : List IconType).zip
            ([[3]] : List (List Nat))).map fun q => mkIcnsEntry q.1 q.2)).length
        = icnsTotalSize ((([⟨"icp4", 16, false⟩] : List IconType).zip
            ([[3]] : List (List Nat))).map fun q => mkIcnsEntry q.1 q.2)) := by
  have h := buffers_self_consistent [((16 : Nat), [5, 5])]
    [⟨"icp4", 16, false⟩] [[3]] (by decide) (by decide) (by decide)
    (by decide) (by decide)
  exact ⟨by decide, by decide, by decide, by decide, by decide,
    h.1, h.2.1, h.2.2⟩

theorem rasterAll_first_error {ε : Type} (raster : Nat → Except ε (List Nat)) :
    ∀ (pre : List Nat) (s : Nat) (post : List Nat) (e : ε),
      (∀ x ∈ pre, ∃ d, raster x = .ok d) → raster s = .error e →
      rasterAll raster (pre ++ s :: post) = .error e := by
  intro pre
  induction pre with
  | nil => intro s post e _ herr; simp [rasterAll, herr]
  | cons x xs ih =>
      intro s post e hpre herr
      obtain ⟨d, hd⟩ := hpre x (by simp)
      have hrec := ih s post e (fun y hy => hpre y (by simp [hy])) herr
      simp [rasterAll, hd, hrec]

theorem icnsRasterAll_first_error {ε : Type} (raster : Nat → Except ε (List Nat)) :
    ∀ (pre : List IconType) (t : IconType) (post : List IconType) (e : ε),
      (∀ x ∈ pre, ∃ d, raster x.size = .ok d) → raster t.size = .error e →
      icnsRasterAll raster (pre ++ t :: post) = .error e := by
  intro pre
  induction pre with
  | nil => intro t post e _ herr; simp [icnsRasterAll, herr]
  | cons x xs ih =>
      intro t post e hpre herr
      obtain ⟨d, hd⟩ := hpre x (by simp)
      have hrec := ih t post e (fun y hy => hpre y (by simp [hy])) herr
      simp [icnsRasterAll, hd, hrec]

/-- C4 (code bug): any rasterization failure aborts both encoders with no
output buffer, surfacing the rasterizer's error value unmodified.  But
precisely because the value is returned unmodified — and `png.SvgToPng`'s
failures are the raw errors of `os.Open`, `oksvg.ReadIconStream` and
`png.Encode`, none of which records the requested pixel size — the
returned error does not identify which size failed: rasterizers whose
first failure is at size 16 versus size 24 (and at the 16 px versus the
32 px table entry) make the encoders return the very same error value. -/
theorem raster_failure_aborts_without_size {ε : Type}
    (raster : Nat → Except ε (List Nat))
    (pre : List Nat) (s : Nat) (post : List Nat) (e : ε)
    (hpre : ∀ x ∈ pre, ∃ d, raster x = .ok d)
    (herr : raster s = .error e)
    (tpre : List IconType) (t : IconType) (tpost : List IconType) (e2 : ε)
    (htpre : ∀ x ∈ tpre, ∃ d, raster x.size = .ok d)
    (hterr : raster t.size = .error e2) :
    (createIcoWith (pre ++ s :: post) raster = .error e
      ∧ createIcnsWith (tpre ++ t :: tpost) raster = .error e2)
    ∧ (CreateIco (fun _ => Except.error (ε := String) "render failed")
        = .error "render failed"
      ∧ CreateIco (fun sz => if sz = 16 then Except.ok []
          else Except.error (ε := String) "render failed")
        = .error "render failed"
      ∧ CreateIcns (fun _ => Except.error (ε := String) "render failed")
        = .error "render failed"
      ∧ CreateIcns (fun sz => if sz = 16 then Except.ok []
          else Except.error (ε := String) "render failed")
        = .error "render failed") := by
  refine ⟨⟨?_, ?_⟩, rfl, rfl, rfl, rfl⟩
  · simp [createIcoWith, rasterAll_first_error raster pre s post e hpre herr]
  · simp [createIcnsWith,
      icnsRasterAll_first_error raster tpre t tpost e2 htpre hterr]

/-- Witness for C4: a rasterizer succeeding below 20 px and failing
otherwise with a size-free error, failing at size 24 in the ICO list and
at the 32 px table entry in the ICNS table. -/
theorem raster_failure_aborts_without_size_witness :
    (∀ x ∈ [16], ∃ d, (fun n => if n < 20 then Except.ok [1]
        else Except.error (ε := String) "render failed") x = .ok d)
    ∧ ((fun n => if n < 20 then Except.ok [1]
        else Except.error (ε := String) "render failed") 24
      = .error "render failed")
    ∧ (∀ x ∈ [IconType.mk "icp4" 16 false],
        ∃ d, (fun n => if n < 20 then Except.ok [1]
          else Except.error (ε := String) "render failed") x.size = .ok d)
    ∧ ((fun n => if n < 20 then Except.ok [1]
        else Except.error (ε := String) "render failed")
          (IconType.mk "icp5" 32 false).size
      = .error "render failed")
    ∧ ((createIcoWith ([16] ++ 24 :: [32, 48])
          (fun n => if n < 20 then Except.ok [1]
            else Except.error (ε := String) "render failed")
        = .error "render failed"
      ∧ createIcnsWith ([IconType.mk "icp4" 16 false]
            ++ IconType.mk "icp5" 32 false :: [])
          (fun n => if n < 20 then Except.ok [1]
            else Except.error (ε := String) "render failed")
          = .error "render failed")
      ∧ (CreateIco (fun _ => Except.error (ε := String) "render failed")
          = .error "render failed"
        ∧ CreateIco (fun sz => if sz = 16 then Except.ok []
            else Except.error (ε := String) "render failed")
          = .error "render failed"
        ∧ CreateIcns (fun _ => Except.error (ε := String) "render failed")
          = .error "render failed"
        ∧ CreateIcns (fun sz => if sz = 16 then Except.ok []
            else Except.error (ε := String) "render failed")
          = .error "render failed")) := by
  refine ⟨?_, rfl, ?_, rfl, ?_⟩
  · intro x hx
    simp only [List.mem_singleton] at hx
    subst hx
    exact ⟨[1], rfl⟩
  · intro x hx
    simp only [List.mem_singleton] at hx
    subst hx
    exact ⟨[1], rfl⟩
  · exact raster_failure_aborts_without_size
      (fun n => if n < 20 then Except.ok [1]
        else Except.error (ε := String) "render failed")
      [16] 24 [32, 48] "render failed"
      (by intro x hx; simp only [List.mem_singleton] at hx; subst hx; exact ⟨[1], rfl⟩)
      rfl [IconType.mk "icp4" 16 false] (IconType.mk "icp5" 32 false) []
      "render failed"
      (by intro x hx; simp only [List.mem_singleton] at hx; subst hx; exact ⟨[1], rfl⟩)
      rfl

theorem length_eq_four_exists {α : Type} :
    ∀ (l : List α), l.length = 4 → ∃ a b c d, l = [a, b, c, d] := by
  intro l h
  rcases l with _ | ⟨a, _ | ⟨b, _ | ⟨c, _ | ⟨d, _ | ⟨x, t⟩⟩⟩⟩⟩
  · simp at h
  · simp at h
  · simp at h
  · simp at h
  · exact ⟨a, b, c, d, rfl⟩
  · simp at h

theorem decBe32_be32 (n : Nat) (tail : List Nat) (h : n < 2 ^ 32) :
    decBe32 (be32 n ++ tail) = n := by
  have hred : decBe32 (be32 n ++ tail)
      = 2 ^ 24 * (n / 2 ^ 24 % 2 ^ 8) + 2 ^ 16 * (n / 2 ^ 16 % 2 ^ 8)
        + 2 ^ 8 * (n / 2 ^ 8 % 2 ^ 8) + n % 2 ^ 8 := rfl
  rw [hred]
  omega

theorem icoEntries_fields_lt :
    ∀ (items : List (Nat × List Nat)) (off : Nat),
      ∀ e ∈ icoEntries items off,
        e.width < 2 ^ 8 ∧ e.bytesInRes < 2 ^ 32 ∧ e.imageOffset < 2 ^ 32 := by
  intro items
  induction items with
  | nil => intro off e he; simp [icoEntries] at he
  | cons p rest ih =>
      intro off e he
      obtain ⟨size, data⟩ := p
      simp only [icoEntries, List.mem_cons] at he
      rcases he with rfl | he
      · refine ⟨?_, ?_, ?_⟩
        · simp only [mkIcoEntry]
          split
          · norm_num
          · exact Nat.mod_lt _ (by norm_num)
        · exact Nat.mod_lt _ (by norm_num)
        · exact Nat.mod_lt _ (by norm_num)
      · exact ih (off + data.length) e he

theorem readIcoDir_entries :
    ∀ (es : List ICONDIREntry) (tail : List Nat),
      (∀ e ∈ es, e.width < 2 ^ 8 ∧ e.bytesInRes < 2 ^ 32
        ∧ e.imageOffset < 2 ^ 32) →
      readIcoDir es.length ((es.map entryBytes).flatten ++ tail)
        = es.map fun e => (e.width, e.bytesInRes, e.imageOffset) := by
  intro es
  induction es with
  | nil => intro tail _; rfl
  | cons e es ih =>
      intro tail hb
      obtain ⟨hw, hbr, hio⟩ := hb e (by simp)
      have htail := ih tail (fun x hx => hb x (by simp [hx]))
      have hshape : ((List.map entryBytes (e :: es)).flatten ++ tail)
          = entryBytes e ++ ((es.map entryBytes).flatten ++ tail) := by
        simp
      rw [List.length_cons, hshape]
      have hstep : readIcoDir (es.length + 1)
          (entryBytes e ++ ((es.map entryBytes).flatten ++ tail))
          = (e.width % 2 ^ 8,
              e.bytesInRes % 2 ^ 8
                + 2 ^ 8 * (e.bytesInRes / 2 ^ 8 % 2 ^ 8)
                + 2 ^ 16 * (e.bytesInRes / 2 ^ 16 % 2 ^ 8)
                + 2 ^ 24 * (e.bytesInRes / 2 ^ 24 % 2 ^ 8),
              e.imageOffset % 2 ^ 8
                + 2 ^ 8 * (e.imageOffset / 2 ^ 8 % 2 ^ 8)
                + 2 ^ 16 * (e.imageOffset / 2 ^ 16 % 2 ^ 8)
                + 2 ^ 24 * (e.imageOffset / 2 ^ 24 % 2 ^ 8))
            :: readIcoDir es.length ((es.map entryBytes).flatten ++ tail) := rfl
      rw [hstep, htail, List.map_cons]
      have h1 : e.width % 2 ^ 8 = e.width := Nat.mod_eq_of_lt hw
      have h2 : e.bytesInRes % 2 ^ 8
          + 2 ^ 8 * (e.bytesInRes / 2 ^ 8 % 2 ^ 8)
          + 2 ^ 16 * (e.bytesInRes / 2 ^ 16 % 2 ^ 8)
          + 2 ^ 24 * (e.bytesInRes / 2 ^ 24 % 2 ^ 8) = e.bytesInRes := by omega
      have h3 : e.imageOffset % 2 ^ 8
          + 2 ^ 8 * (e.imageOffset / 2 ^ 8 % 2 ^ 8)
          + 2 ^ 16 * (e.imageOffset / 2 ^ 16 % 2 ^ 8)
          + 2 ^ 24 * (e.imageOffset / 2 ^ 24 % 2 ^ 8) = e.imageOffset := by omega
      rw [h1, h2, h3]

theorem ico_recover_aux (b : List Nat) :
    ∀ (items : List (Nat × List Nat)) (off : Nat),
      (∀ q ∈ items, q.1 ∈ IconSizes) →
      off + ((items.map fun q => q.2.length).sum) < 2 ^ 32 →
      b.drop off = (items.map Prod.snd).flatten →
      (icoEntries items off).map (fun e =>
          (if e.width = 0 then 256 else e.width,
            (b.drop e.imageOffset).take e.bytesInRes)) = items := by
  intro items
  induction items with
  | nil => intro off _ _ _; rfl
  | cons q rest ih =>
      intro off hsz hfit hdrop
      obtain ⟨size, data⟩ := q
      have hs : size ∈ IconSizes := hsz (size, data) (by simp)
      have hfit0 : off + (data.length
          + ((rest.map fun q => q.2.length).sum)) < 2 ^ 32 := by
        simpa using hfit
      have hoffm : off % 2 ^ 32 = off := Nat.mod_eq_of_lt (by omega)
      have hdm : data.length % 2 ^ 32 = data.length := Nat.mod_eq_of_lt (by omega)
      have hdropc : b.drop off = data ++ (rest.map Prod.snd).flatten := by
        simpa using hdrop
      have hwid : (if (mkIcoEntry size data off).width = 0 then 256
          else (mkIcoEntry size data off).width) = size := by
        have hs7 : size = 16 ∨ size = 24 ∨ size = 32 ∨ size = 48 ∨ size = 64
            ∨ size = 128 ∨ size = 256 := by simpa [IconSizes] using hs
        rcases hs7 with rfl | rfl | rfl | rfl | rfl | rfl | rfl <;> rfl
      have hpay : (b.drop (mkIcoEntry size data off).imageOffset).take
          (mkIcoEntry size data off).bytesInRes = data := by
        simp only [mkIcoEntry]
        rw [hoffm, hdm, hdropc]
        exact List.take_left data _
      have hdroprec : b.drop (off + data.length)
          = (rest.map Prod.snd).flatten := by
        calc b.drop (off + data.length)
            = (b.drop off).drop data.length := by
              rw [List.drop_drop, Nat.add_comm]
          _ = (rest.map Prod.snd).flatten := by
              rw [hdropc]; exact List.drop_left data _
      have hrec := ih (off + data.length) (fun x hx => hsz x (by simp [hx]))
        (by omega) hdroprec
      simp only [icoEntries, List.map_cons, List.cons.injEq, Prod.mk.injEq]
      exact ⟨⟨hwid, hpay⟩, hrec⟩

theorem scanIcns_cons (fuel : Nat) (ty : List Nat) (L : Nat)
    (data tail : List Nat) (hty : ty.length = 4)
    (hL : L = data.length + 8) (hfit : L < 2 ^ 32) :
    scanIcns (fuel + 1) (ty ++ be32 L ++ (data ++ tail))
      = match scanIcns fuel tail with
        | some rest => some ((ty, data) :: rest)
        | none => none := by
  obtain ⟨a, b, c, d, rfl⟩ := length_eq_four_exists ty hty
  have hcons : ([a, b, c, d] : List Nat) ++ (be32 L ++ (data ++ tail))
      = a :: b :: c :: d :: (be32 L ++ (data ++ tail)) := rfl
  rw [List.append_assoc, hcons]
  have hlen8 : ¬ ((a :: b :: c :: d :: (be32 L ++ (data ++ tail))).length < 8) := by
    simp [be32]
  have hdrop4 : (a :: b :: c :: d :: (be32 L ++ (data ++ tail))).drop 4
      = be32 L ++ (data ++ tail) := rfl
  have hdrop8 : (a :: b :: c :: d :: (be32 L ++ (data ++ tail))).drop 8
      = data ++ tail := rfl
  have htake4 : (a :: b :: c :: d :: (be32 L ++ (data ++ tail))).take 4
      = [a, b, c, d] := rfl
  have hdec : decBe32 ((a :: b :: c :: d :: (be32 L ++ (data ++ tail))).drop 4)
      = L := by
    rw [hdrop4]
    exact decBe32_be32 L _ hfit
  have hsub : L - 8 = data.length := by omega
  simp only [scanIcns, hdec, hdrop8, htake4, hsub, if_neg hlen8,
    List.drop_left, List.take_left]

theorem scanIcns_flatten :
    ∀ (entries : List IconEntry) (fuel : Nat),
      (∀ e ∈ entries, e.osType.length = 4 ∧ e.length = e.data.length + 8
        ∧ e.length < 2 ^ 32) →
      ((entries.map icnsEntryBytes).flatten).length ≤ fuel →
      scanIcns fuel ((entries.map icnsEntryBytes).flatten)
        = some (entries.map fun e => (e.osType, e.data)) := by
  intro entries
  induction entries with
  | nil => intro fuel _ _; cases fuel <;> rfl
  | cons e es ih =>
      intro fuel hwf hfuel
      obtain ⟨hty, hlen, hfit⟩ := hwf e (by simp)
      have hblock : (icnsEntryBytes e).length = e.data.length + 8 := by
        simp [icnsEntryBytes, be32, hty]
        omega
      have hflen : ((List.map icnsEntryBytes (e :: es)).flatten).length
          = (icnsEntryBytes e).length
            + ((es.map icnsEntryBytes).flatten).length := by
        simp
      cases fuel with
      | zero =>
          exfalso
          rw [hflen, hblock] at hfuel
          omega
      | succ f =>
          have hshape : (List.map icnsEntryBytes (e :: es)).flatten
              = e.osType ++ be32 e.length
                ++ (e.data ++ (es.map icnsEntryBytes).flatten) := by
            simp [icnsEntryBytes, List.append_assoc]
          rw [hshape, scanIcns_cons f e.osType e.length e.data _ hty hlen hfit]
          rw [ih f (fun x hx => hwf x (by simp [hx])) (by
            rw [hflen, hblock] at hfuel
            omega)]
          rfl

theorem icoBuffer_explicit (payloads : List (List Nat))
    (hp7 : payloads.length = 7) :
    icoBuffer (IconSizes.zip payloads)
      = 0 :: 0 :: 1 :: 0 :: 7 :: 0 ::
        (((icoEntries (IconSizes.zip payloads) 118).map entryBytes).flatten
          ++ payloads.flatten) := by
  have hzl : (IconSizes.zip payloads).length = 7 := by simp [IconSizes, hp7]
  have hsnd : (IconSizes.zip payloads).map Prod.snd = payloads :=
    List.map_snd_zip _ _ (by simp [IconSizes, hp7])
  simp only [icoBuffer, hzl, hsnd]
  norm_num [icoHeader, le16]

theorem parseIco_roundtrip (payloads : List (List Nat))
    (hp7 : payloads.length = 7)
    (hfit : 118 + (payloads.map List.length).sum < 2 ^ 32) :
    parseIcoSpec (icoBuffer (IconSizes.zip payloads))
      = some (IconSizes.zip payloads) := by
  have hzl : (IconSizes.zip payloads).length = 7 := by simp [IconSizes, hp7]
  have hsnd : (IconSizes.zip payloads).map Prod.snd = payloads :=
    List.map_snd_zip _ _ (by simp [IconSizes, hp7])
  have hmapl : ((IconSizes.zip payloads).map fun q => q.2.length)
      = payloads.map List.length := by
    calc ((IconSizes.zip payloads).map fun q => q.2.length)
        = ((IconSizes.zip payloads).map Prod.snd).map List.length := by
          rw [List.map_map]; rfl
      _ = payloads.map List.length := by rw [hsnd]
  have hE : (((icoEntries (IconSizes.zip payloads) 118).map
      entryBytes).flatten).length = 112 := by
    rw [icoEntryBytesFlatten_length, icoEntries_length, hzl]
  rw [icoBuffer_explicit payloads hp7]
  simp only [parseIcoSpec]
  norm_num
  have hread := readIcoDir_entries (icoEntries (IconSizes.zip payloads) 118)
    payloads.flatten (icoEntries_fields_lt (IconSizes.zip payloads) 118)
  rw [icoEntries_length, hzl] at hread
  rw [hread, List.map_map]
  have hdrop : (0 :: 0 :: 1 :: 0 :: 7 :: 0 ::
      (((icoEntries (IconSizes.zip payloads) 118).map entryBytes).flatten
        ++ payloads.flatten)).drop 118
      = ((IconSizes.zip payloads).map Prod.snd).flatten := by
    calc (0 :: 0 :: 1 :: 0 :: 7 :: 0 ::
        (((icoEntries (IconSizes.zip payloads) 118).map entryBytes).flatten
          ++ payloads.flatten)).drop 118
        = (((icoEntries (IconSizes.zip payloads) 118).map entryBytes).flatten
            ++ payloads.flatten).drop 112 := rfl
      _ = payloads.flatten := List.drop_left' hE
      _ = ((IconSizes.zip payloads).map Prod.snd).flatten := by rw [hsnd]
  have haux := ico_recover_aux
    (0 :: 0 :: 1 :: 0 :: 7 :: 0 ::
      (((icoEntries (IconSizes.zip payloads) 118).map entryBytes).flatten
        ++ payloads.flatten))
    (IconSizes.zip payloads) 118
    (fun q hq => (List.of_mem_zip hq).1)
    (by rw [hmapl]; exact hfit) hdrop
  exact haux

theorem parseIcns_roundtrip (entries : List IconEntry)
    (hwf : ∀ e ∈ entries, e.osType.length = 4 ∧ e.length = e.data.length + 8
      ∧ e.length < 2 ^ 32) :
    parseIcnsSpec (icnsBuffer entries)
      = some (entries.map fun e => (e.osType, e.data)) := by
  have hsb : strBytes "icns" = [105, 99, 110, 115] := by decide
  have hbuf : icnsBuffer entries
      = [105, 99, 110, 115]
        ++ (be32 (icnsTotalSize entries)
          ++ (entries.map icnsEntryBytes).flatten) := by
    simp only [icnsBuffer, List.append_assoc, hsb]
  rw [hbuf]
  simp only [parseIcnsSpec, hsb]
  have hc : ((([105, 99, 110, 115] : List Nat)
      ++ (be32 (icnsTotalSize entries)
        ++ (entries.map icnsEntryBytes).flatten))).take 4
      = [105, 99, 110, 115] := rfl
  rw [if_pos hc]
  have hdrop8 : ((([105, 99, 110, 115] : List Nat)
      ++ (be32 (icnsTotalSize entries)
        ++ (entries.map icnsEntryBytes).flatten))).drop 8
      = (entries.map icnsEntryBytes).flatten := rfl
  rw [hdrop8]
  apply scanIcns_flatten entries _ hwf
  simp [be32]
  omega

/-- C9: parsing the buffer produced by `CreateIco` with a conformant ICO
reader recovers exactly the size/payload pairs fed in (the same count,
the sizes under the 0-means-256 convention, byte-identical payloads), and
parsing the buffer produced by `CreateIcns` with a conformant ICNS reader
recovers exactly the type-code/payload pairs fed in. -/
theorem roundtrip_conformant_readers {ε : Type}
    (raster : Nat → Except ε (List Nat)) (payloads : List (List Nat))
    (hico : rasterAll raster IconSizes = .ok payloads)
    (hfit : 118 + (payloads.map List.length).sum < 2 ^ 32)
    (entries : List IconEntry)
    (hicns : icnsRasterAll raster StandardIconTypes = .ok entries)
    (hdfit : ∀ e ∈ entries, e.data.length + 8 < 2 ^ 32) :
    (∃ buf, CreateIco raster = .ok buf
      ∧ parseIcoSpec buf = some (IconSizes.zip payloads))
    ∧ (∃ buf2, CreateIcns raster = .ok buf2
      ∧ parseIcnsSpec buf2
          = some (entries.map fun e => (e.osType, e.data))) := by
  have hp7 : payloads.length = 7 := by
    simpa [IconSizes] using rasterAll_length raster IconSizes payloads hico
  refine ⟨⟨icoBuffer (IconSizes.zip payloads), ?_, ?_⟩,
    ⟨icnsBuffer entries, ?_, ?_⟩⟩
  · simp [CreateIco, createIcoWith, hico]
  · exact parseIco_roundtrip payloads hp7 hfit
  · simp [CreateIcns, createIcnsWith, hicns]
  · apply parseIcns_roundtrip entries
    obtain ⟨ps, hlen, hshape⟩ := icnsRasterAll_ok_shape raster _ entries hicns
    intro e he
    have hd := hdfit e he
    rw [hshape] at he
    obtain ⟨q, hq, hform⟩ := List.mem_map.mp he
    subst hform
    simp only [mkIcnsEntry, osTypeBytes_length] at hd ⊢
    refine ⟨trivial, ?_, ?_⟩ <;> omega

/-- Witness for C9 at a constant rasterizer returning the payload
`[3, 1, 4]` for every size. -/
theorem roundtrip_conformant_readers_witness :
    (rasterAll (fun _ => Except.ok (ε := Unit) [3, 1, 4]) IconSizes
      = .ok [[3, 1, 4], [3, 1, 4], [3, 1, 4], [3, 1, 4], [3, 1, 4],
          [3, 1, 4], [3, 1, 4]])
    ∧ (118 + (([[3, 1, 4], [3, 1, 4], [3, 1, 4], [3, 1, 4], [3, 1, 4],
          [3, 1, 4], [3, 1, 4]] : List (List Nat)).map List.length).sum < 2 ^ 32)
    ∧ (icnsRasterAll (fun _ => Except.ok (ε := Unit) [3, 1, 4]) StandardIconTypes
      = .ok (StandardIconTypes.map (fun t => mkIcnsEntry t [3, 1, 4])))
    ∧ (∀ e ∈ StandardIconTypes.map (fun t => mkIcnsEntry t [3, 1, 4]),
        e.data.length + 8 < 2 ^ 32)
    ∧ ((∃ buf, CreateIco (fun _ => Except.ok (ε := Unit) [3, 1, 4]) = .ok buf
        ∧ parseIcoSpec buf
            = some (IconSizes.zip [[3, 1, 4], [3, 1, 4], [3, 1, 4], [3, 1, 4],
                [3, 1, 4], [3, 1, 4], [3, 1, 4]]))
      ∧ (∃ buf2, CreateIcns (fun _ => Except.ok (ε := Unit) [3, 1, 4]) = .ok buf2
        ∧ parseIcnsSpec buf2
            = some ((StandardIconTypes.map (fun t => mkIcnsEntry t [3, 1, 4])).map
                fun e => (e.osType, e.data)))) :=
  ⟨rfl, by decide, rfl, by decide,
    roundtrip_conformant_readers (fun _ => Except.ok (ε := Unit) [3, 1, 4])
      _ rfl (by decide) _ rfl (by decide)⟩

end Svg2Icon
